import Mathlib

/-!
Shallow embedding of `src/build_shanghai_graph.py`, the graph-construction
pipeline for a metropolitan rail network (stations, lines, metro edges via
track projection, walking edges via an admissibility rule), together with
theorems settling the specification claims about it.

Conventions of the embedding:
* Python floats are modelled as `ℚ`; every arithmetic comparison in the
  source is exact at the inputs the claims exercise.
* External geometry and graph libraries (CRS reprojection, shapely
  distances and nearest points, osmnx nearest-node and great-circle
  queries, networkx shortest paths) are oracles: explicit function fields
  of an `Oracles` record.  `shortest_path_length` returns `Option ℚ`,
  `none` standing for the `NetworkXNoPath` exception.
* The mutation of the shared track table (`tracks_gdf["dist"] = ...`) is
  modelled by explicit state passing: `metro_distance` returns the updated
  track collection alongside its result.
* A Python exception that the source does not catch aborts the build; the
  embedding of `build_graph` therefore returns `Except BuildErr Graph`.
-/

namespace TubeSolver

/-! ### Assumption constants (the `ASSUMPTIONS` dict) -/

def metro_cruise_speed_kmh : ℚ := 40.0

def avg_walk_speed_kmh : ℚ := 4.8

def dwell_time_s : ℚ := 30

def minimum_platform_access_time_s : ℚ := 120

def minimum_transfer_overhead_s : ℚ := 180

def terminal_turnback_penalty_s : ℚ := 300

/-- `seconds_per_meter(speed_kmh) = 3600.0 / (speed_kmh * 1000.0)`. -/
def seconds_per_meter (speed_kmh : ℚ) : ℚ := 3600 / (speed_kmh * 1000)

/-! ### Station table (`build_station_table`) -/

/-- A source feature's geometry: either a point, or a non-point geometry of
which the code only ever uses the centroid (computed by shapely, hence the
centroid is carried as data). -/
inductive Geometry where
  | point (x y : ℚ)
  | nonPoint (centroidX centroidY : ℚ)
deriving DecidableEq, Repr

/-- `if geom.geom_type != "Point": geom = geom.centroid`, then read
`(geom.x, geom.y)`. -/
def Geometry.coords : Geometry → ℚ × ℚ
  | .point x y => (x, y)
  | .nonPoint cx cy => (cx, cy)

/-- A raw point feature row of the stations GeoDataFrame: its `osmid`, an
optional `name` tag, and its geometry. -/
structure Feature where
  osmid : Nat
  fname : Option String
  geom : Geometry
deriving DecidableEq, Repr

/-- One row of the station table built by `build_station_table`. -/
structure Station where
  station_id : Nat
  osm_id : Nat
  sname : String
  lat : ℚ
  lon : ℚ
deriving DecidableEq, Repr

/-- The record appended for a freshly seen feature: name falls back to
`"station_<id>"`, coordinates are `geom.y` / `geom.x` (centroid for
non-points). -/
def mkStation (sid : Nat) (f : Feature) : Station :=
  { station_id := sid
    osm_id := f.osmid
    sname := f.fname.getD ("station_" ++ toString sid)
    lat := f.geom.coords.2
    lon := f.geom.coords.1 }

/-- The loop of `build_station_table`: `seen` is the set of osm ids already
given a station id (the Python dict's keys; `len(seen)` is the next id). -/
def buildStationAux : List Feature → List Nat → List Station
  | [], _ => []
  | f :: rest, seen =>
      if f.osmid ∈ seen then buildStationAux rest seen
      else mkStation seen.length f :: buildStationAux rest (f.osmid :: seen)

def build_station_table (stations_gdf : List Feature) : List Station :=
  buildStationAux stations_gdf []

example :
    build_station_table
      [⟨10, some "A", .point 1 2⟩, ⟨10, some "B", .point 3 4⟩,
       ⟨20, none, .nonPoint 5 6⟩] =
      [⟨0, 10, "A", 2, 1⟩, ⟨1, 20, "station_1", 6, 5⟩] := by
  decide

/-! ### Walking admissibility (`walking_is_admissible`) -/

def walking_is_admissible (dist_walk_m euclid_m : ℚ) : Bool :=
  let walk_time := dist_walk_m * seconds_per_meter avg_walk_speed_kmh
  let optimistic_metro_time := euclid_m * seconds_per_meter metro_cruise_speed_kmh
  let min_overhead := dwell_time_s + minimum_platform_access_time_s
  decide (walk_time < optimistic_metro_time + min_overhead)

/-- Unfolding of the admissibility rule to its arithmetic comparison. -/
theorem walking_is_admissible_iff (dist_walk_m euclid_m : ℚ) :
    walking_is_admissible dist_walk_m euclid_m = true ↔
      dist_walk_m * seconds_per_meter avg_walk_speed_kmh <
        euclid_m * seconds_per_meter metro_cruise_speed_kmh +
          (dwell_time_s + minimum_platform_access_time_s) := by
  simp [walking_is_admissible]

example : walking_is_admissible 650 500 = false := by
  rw [Bool.eq_false_iff, Ne, walking_is_admissible_iff]
  norm_num [seconds_per_meter, avg_walk_speed_kmh, metro_cruise_speed_kmh,
    dwell_time_s, minimum_platform_access_time_s]

example : walking_is_admissible 100 500 = true := by
  rw [walking_is_admissible_iff]
  norm_num [seconds_per_meter, avg_walk_speed_kmh, metro_cruise_speed_kmh,
    dwell_time_s, minimum_platform_access_time_s]

/-! ### Line definitions (`build_lines`) -/

/-- One entry of a route's `members` list; the code reads only `m.get("ref")`
(`none` when the member has no `ref` key). -/
structure Member where
  mref : Option Nat
deriving DecidableEq, Repr

/-- A route row: optional `ref` and `name` tags and an optional members
list (`none` models a missing or non-list `members` value). -/
structure RouteFeature where
  rref : Option String
  rname : Option String
  members : Option (List Member)
deriving DecidableEq, Repr

/-- Per-line output record `{"name": ..., "stations": ...}`. -/
structure LineRec where
  lname : String
  stations : List Nat
deriving DecidableEq, Repr

/-- Python truthiness of `row.get(k)` for a string-valued tag: `None` and
the empty string are falsy. -/
def pyTruthy : Option String → Bool
  | none => false
  | some s => s ≠ ""

/-- `line_id = row.get("ref") or row.get("name")`, discarded when falsy. -/
def lineIdOf (r : RouteFeature) : Option String :=
  let v := if pyTruthy r.rref then r.rref else r.rname
  if pyTruthy v then v else none

/-- Lookup in a Python dict built by inserting the listed bindings in order:
a later binding for the same key overrides an earlier one. -/
def dictLookup (d : List (Nat × Nat)) (k : Nat) : Option Nat :=
  (d.reverse.find? (fun p => p.1 == k)).map (fun p => p.2)

/-- `osm_to_station = dict(zip(station_df.osm_id, station_df.station_id))`. -/
def osm_to_station (station_df : List Station) : List (Nat × Nat) :=
  station_df.map (fun s => (s.osm_id, s.station_id))

/-- The member-resolution loop: `seq.append(osm_to_station[ref])` exactly
when `m.get("ref")` is a key of the lookup. -/
def resolveMembers (d : List (Nat × Nat)) : List Member → List Nat
  | [] => []
  | m :: rest =>
      match m.mref with
      | none => resolveMembers d rest
      | some r =>
          match dictLookup d r with
          | none => resolveMembers d rest
          | some sid => sid :: resolveMembers d rest

/-- `lines[line_id] = v`: dict assignment updates an existing key in place
and otherwise appends a fresh binding. -/
def linesInsert (l : List (String × LineRec)) (k : String) (v : LineRec) :
    List (String × LineRec) :=
  if l.any (fun p => p.1 == k) then
    l.map (fun p => if p.1 == k then (k, v) else p)
  else l ++ [(k, v)]

def build_lines (routes_gdf : List RouteFeature) (station_df : List Station) :
    List (String × LineRec) :=
  let d := osm_to_station station_df
  routes_gdf.foldl
    (fun lines r =>
      match lineIdOf r with
      | none => lines
      | some lid =>
          match r.members with
          | none => lines
          | some ms =>
              let seq := resolveMembers d ms
              if 2 ≤ seq.length then
                linesInsert lines lid { lname := r.rname.getD lid, stations := seq }
              else lines)
    []

example :
    build_lines
      [{ rref := some "L1", rname := none,
         members := some [⟨some 10⟩, ⟨none⟩, ⟨some 99⟩, ⟨some 20⟩] },
       { rref := some "L2", rname := some "Line two",
         members := some [⟨some 10⟩] },
       { rref := none, rname := none, members := some [⟨some 10⟩, ⟨some 20⟩] }]
      [⟨0, 10, "A", 2, 1⟩, ⟨1, 20, "B", 6, 5⟩] =
      [("L1", { lname := "L1", stations := [0, 1] })] := by
  decide

/-! ### Graph data model (networkx `DiGraph`) -/

/-- A dynamically typed Python attribute value: the node `name` attribute
is an int for some inputs and a string for others, so it is embedded as a
sum. -/
inductive PyVal where
  | str (s : String)
  | int (n : Nat)
deriving DecidableEq, Repr

structure NodeAttr where
  nm : PyVal
  lat : ℚ
  lon : ℚ
deriving DecidableEq, Repr

inductive Mode where
  | metro
  | walk
deriving DecidableEq, Repr

/-- The attribute dict of one directed edge.  `line` is `none` when the
`line` key is absent (walking edges never set it). -/
structure EdgeAttr where
  mode : Mode
  line : Option String
  distance_m : ℚ
  time_s : ℚ
deriving DecidableEq, Repr

/-- A `networkx.DiGraph`: nodes and edges are dicts, an edge is keyed by
its ordered endpoint pair alone. -/
structure Graph where
  nodes : List (Nat × NodeAttr)
  edges : List ((Nat × Nat) × EdgeAttr)
deriving DecidableEq, Repr

/-- Dict write: update the binding of `k` in place, else append. -/
def setNode (ns : List (Nat × NodeAttr)) (k : Nat) (a : NodeAttr) :
    List (Nat × NodeAttr) :=
  match ns with
  | [] => [(k, a)]
  | (k₀, a₀) :: rest =>
      if k₀ = k then (k, a) :: rest else (k₀, a₀) :: setNode rest k a

/-- Edge-dict write.  `add_edge` merges the keyword attributes into the
existing attribute dict of the edge, so the update is a function of the
previous attributes (when the edge already exists). -/
def setEdge (es : List ((Nat × Nat) × EdgeAttr)) (k : Nat × Nat)
    (upd : Option EdgeAttr → EdgeAttr) : List ((Nat × Nat) × EdgeAttr) :=
  match es with
  | [] => [(k, upd none)]
  | (k₀, a₀) :: rest =>
      if k₀ = k then (k, upd (some a₀)) :: rest
      else (k₀, a₀) :: setEdge rest k upd

def add_node (g : Graph) (k : Nat) (a : NodeAttr) : Graph :=
  { g with nodes := setNode g.nodes k a }

def add_edge (g : Graph) (k : Nat × Nat) (upd : Option EdgeAttr → EdgeAttr) :
    Graph :=
  { g with edges := setEdge g.edges k upd }

def lookupNode (ns : List (Nat × NodeAttr)) (k : Nat) : Option NodeAttr :=
  (ns.find? (fun p => p.1 = k)).map (fun p => p.2)

def lookupEdge (es : List ((Nat × Nat) × EdgeAttr)) (k : Nat × Nat) :
    Option EdgeAttr :=
  (es.find? (fun p => p.1 = k)).map (fun p => p.2)

/-! ### Track collection and external-library oracles -/

/-- One row of the (UTM-reprojected) track GeoDataFrame: an opaque geometry
identifier and the `dist` column, absent until `metro_distance` first
writes it. -/
structure TrackRow where
  geom : Nat
  dist : Option ℚ
deriving DecidableEq, Repr

/-- The external geometry/graph libraries, as oracles:
`toUTM lon lat` is the CRS reprojection of a WGS84 point;
`geomDistToPoint` is shapely `geometry.distance(pt)`;
`nearestPointOn g pt` is `nearest_points(g, pt)[0]`;
`pointDist` is shapely point-to-point distance;
`nearest_nodes lon lat` is `ox.distance.nearest_nodes(G_walk, lon, lat)`;
`great_circle lat1 lon1 lat2 lon2` is `ox.distance.great_circle_vec`;
`shortest_path_length n1 n2` is networkx shortest-path length over the
pedestrian graph weighted by length, `none` when it raises
`NetworkXNoPath`. -/
structure Oracles where
  toUTM : ℚ → ℚ → ℚ × ℚ
  geomDistToPoint : Nat → ℚ × ℚ → ℚ
  nearestPointOn : Nat → ℚ × ℚ → ℚ × ℚ
  pointDist : ℚ × ℚ → ℚ × ℚ → ℚ
  nearest_nodes : ℚ → ℚ → Nat
  great_circle : ℚ → ℚ → ℚ → ℚ → ℚ
  shortest_path_length : Nat → Nat → Option ℚ

/-- `tracks_gdf["dist"] = tracks_gdf.geometry.distance(pt_a)`: every row's
`dist` column is (re)assigned. -/
def assignDist (ox : Oracles) (ptA : ℚ × ℚ) (tracks : List TrackRow) :
    List TrackRow :=
  tracks.map (fun t => { t with dist := some (ox.geomDistToPoint t.geom ptA) })

/-- `tracks_gdf.sort_values("dist").iloc[0]`: the first row attaining the
minimal `dist` value (absent `dist` read as 0; unreachable in the calls
made, where every row was just assigned). -/
def argminByDist : List TrackRow → Option TrackRow
  | [] => none
  | t :: rest =>
      match argminByDist rest with
      | none => some t
      | some u => if u.dist.getD 0 < t.dist.getD 0 then some u else some t

/-- `metro_distance(station_a, station_b, tracks_gdf)`.  The mutation of the
shared `dist` column is returned as the updated track collection; the result
is `none` when the collection is empty (Python raises `IndexError`). -/
def metro_distance (ox : Oracles) (station_a station_b : Station)
    (tracks_gdf : List TrackRow) : Option ℚ × List TrackRow :=
  let pt_a := ox.toUTM station_a.lon station_a.lat
  let pt_b := ox.toUTM station_b.lon station_b.lat
  let tracks2 := assignDist ox pt_a tracks_gdf
  match argminByDist tracks2 with
  | none => (none, tracks2)
  | some track =>
      let proj_a := ox.nearestPointOn track.geom pt_a
      let proj_b := ox.nearestPointOn track.geom pt_b
      (some (ox.pointDist proj_a proj_b), tracks2)

/-! ### `build_graph` -/

/-- An uncaught Python exception aborting `build_graph`:
`stationNotFound` for the `IndexError` of `stations.loc[...].iloc[0]` on an
unknown station id, `emptyTracks` for the `IndexError` of `.iloc[0]` on an
empty track table, `noWalkPath` for `NetworkXNoPath`, `keyError` for a
missing `walk_nodes` key. -/
inductive BuildErr where
  | stationNotFound
  | emptyTracks
  | noWalkPath
  | keyError
deriving DecidableEq, Repr

/-- Attribute merge of
`G.add_edge(a, b, mode="metro", line=lid, distance_m=d, time_s=t)`:
every attribute key is overwritten. -/
def metroUpd (lid : String) (d t : ℚ) : Option EdgeAttr → EdgeAttr :=
  fun _ => { mode := .metro, line := some lid, distance_m := d, time_s := t }

/-- Attribute merge of
`G.add_edge(u, v, mode="walk", distance_m=d, time_s=t)`: no `line` keyword,
so a pre-existing `line` attribute survives the merge. -/
def walkUpd (d t : ℚ) : Option EdgeAttr → EdgeAttr :=
  fun old =>
    { mode := .walk
      line := match old with
        | some a => a.line
        | none => none
      distance_m := d
      time_s := t }

/-- The node pass.  `s.name` on a row produced by `iterrows()` is the
pandas Series name, i.e. the row's index label (the positional index of the
default RangeIndex), not the `"name"` column; hence `PyVal.int`. -/
def addNodesPass (stations : List Station) (g : Graph) : Graph :=
  stations.enum.foldl
    (fun g p =>
      add_node g p.2.station_id
        { nm := PyVal.int p.1, lat := p.2.lat, lon := p.2.lon })
    g

/-- The inner metro-edge loop of one line over its consecutive pairs
`zip(seq, seq[1:])`. -/
def addLineEdges (ox : Oracles) (stations : List Station) (lid : String) :
    List (Nat × Nat) → Graph → List TrackRow →
      Except BuildErr (Graph × List TrackRow)
  | [], g, tracks => .ok (g, tracks)
  | (a, b) :: rest, g, tracks =>
      match stations.find? (fun s => s.station_id == a),
            stations.find? (fun s => s.station_id == b) with
      | some sa, some sb =>
          match metro_distance ox sa sb tracks with
          | (none, _) => .error .emptyTracks
          | (some dist, tracks2) =>
              let time_s :=
                dist * seconds_per_meter metro_cruise_speed_kmh + dwell_time_s
              let g1 := add_edge g (a, b) (metroUpd lid dist time_s)
              let g2 := add_edge g1 (b, a) (metroUpd lid dist time_s)
              addLineEdges ox stations lid rest g2 tracks2
      | _, _ => .error .stationNotFound

/-- The metro pass over all lines, threading the track collection. -/
def metroPass (ox : Oracles) (stations : List Station) :
    List (String × LineRec) → Graph → List TrackRow →
      Except BuildErr (Graph × List TrackRow)
  | [], g, tracks => .ok (g, tracks)
  | (lid, line) :: rest, g, tracks =>
      match addLineEdges ox stations lid
          (line.stations.zip line.stations.tail) g tracks with
      | .error e => .error e
      | .ok (g2, tracks2) => metroPass ox stations rest g2 tracks2

/-- `walk_nodes = {s.station_id: ox.distance.nearest_nodes(G_walk, s.lon,
s.lat) for _, s in stations.iterrows()}`. -/
def walk_nodes_dict (ox : Oracles) (stations : List Station) :
    List (Nat × Nat) :=
  stations.map (fun s => (s.station_id, ox.nearest_nodes s.lon s.lat))

/-- The body of the double loop for one candidate pair `(s1, s2)` that
already passed `i < j`. -/
def walkStep (ox : Oracles) (wn : List (Nat × Nat)) (s1 s2 : Station)
    (g : Graph) : Except BuildErr Graph :=
  let euclid_m := ox.great_circle s1.lat s1.lon s2.lat s2.lon
  if 1500 < euclid_m then .ok g
  else
    match dictLookup wn s1.station_id, dictLookup wn s2.station_id with
    | some n1, some n2 =>
        match ox.shortest_path_length n1 n2 with
        | none => .error .noWalkPath
        | some d_walk =>
            if walking_is_admissible d_walk euclid_m then
              let t := d_walk * seconds_per_meter avg_walk_speed_kmh
              let g1 :=
                add_edge g (s1.station_id, s2.station_id) (walkUpd d_walk t)
              let g2 :=
                add_edge g1 (s2.station_id, s1.station_id) (walkUpd d_walk t)
              .ok g2
            else .ok g
    | _, _ => .error .keyError

/-- The candidate pairs of the double `iterrows()` loop: row pairs with
`i < j` (the `i >= j` branch is `continue`), in loop order. -/
def walkPairs (stations : List Station) : List (Station × Station) :=
  (stations.enum.map (fun p =>
    stations.enum.filterMap (fun q =>
      if p.1 < q.1 then some (p.2, q.2) else none))).flatten

def walkPass (ox : Oracles) (wn : List (Nat × Nat)) :
    List (Station × Station) → Graph → Except BuildErr Graph
  | [], g => .ok g
  | (s1, s2) :: rest, g =>
      match walkStep ox wn s1 s2 g with
      | .error e => .error e
      | .ok g2 => walkPass ox wn rest g2

/-- `build_graph(stations, lines, tracks_gdf, G_walk)`. -/
def build_graph (ox : Oracles) (stations : List Station)
    (lines : List (String × LineRec)) (tracks_gdf : List TrackRow) :
    Except BuildErr Graph :=
  let g0 : Graph := { nodes := [], edges := [] }
  let g1 := addNodesPass stations g0
  match metroPass ox stations lines g1 tracks_gdf with
  | .error e => .error e
  | .ok (g2, _) =>
      walkPass ox (walk_nodes_dict ox stations) (walkPairs stations) g2

/-! ### Station-table lemmas (claim C7) -/

theorem buildStationAux_osmid_not_seen {fs : List Feature} {seen : List Nat}
    {s : Station} (h : s ∈ buildStationAux fs seen) : s.osm_id ∉ seen := by
  induction fs generalizing seen with
  | nil => simp [buildStationAux] at h
  | cons f rest ih =>
      rw [buildStationAux] at h
      by_cases hf : f.osmid ∈ seen
      · rw [if_pos hf] at h
        exact ih h
      · rw [if_neg hf] at h
        rcases List.mem_cons.mp h with h | h
        · simp only [h, mkStation]; exact hf
        · intro hc
          exact ih h (List.mem_cons_of_mem _ hc)

theorem buildStationAux_osmid_nodup (fs : List Feature) (seen : List Nat) :
    ((buildStationAux fs seen).map Station.osm_id).Nodup := by
  induction fs generalizing seen with
  | nil => simp [buildStationAux]
  | cons f rest ih =>
      rw [buildStationAux]
      by_cases hf : f.osmid ∈ seen
      · rw [if_pos hf]; exact ih seen
      · rw [if_neg hf]
        refine List.nodup_cons.mpr ⟨?_, ih (f.osmid :: seen)⟩
        intro hc
        rcases List.mem_map.mp hc with ⟨s, hs, hid⟩
        have := buildStationAux_osmid_not_seen hs
        rw [hid] at this
        exact this (List.mem_cons_self _ _)

theorem buildStationAux_mem_osmid {fs : List Feature} {seen : List Nat}
    {i : Nat} :
    i ∈ (buildStationAux fs seen).map Station.osm_id ↔
      i ∈ fs.map Feature.osmid ∧ i ∉ seen := by
  induction fs generalizing seen with
  | nil => simp [buildStationAux]
  | cons f rest ih =>
      rw [buildStationAux]
      by_cases hf : f.osmid ∈ seen
      · rw [if_pos hf]
        rw [ih]
        simp only [List.map_cons, List.mem_cons]
        constructor
        · rintro ⟨h1, h2⟩; exact ⟨Or.inr h1, h2⟩
        · rintro ⟨h1 | h1, h2⟩
          · exact absurd (h1 ▸ hf) h2
          · exact ⟨h1, h2⟩
      · rw [if_neg hf]
        simp only [List.map_cons, List.mem_cons, mkStation, ih]
        constructor
        · rintro (h | ⟨h1, h2⟩)
          · exact ⟨Or.inl h, h ▸ hf⟩
          · exact ⟨Or.inr h1, fun hc => h2 (Or.inr hc)⟩
        · rintro ⟨h1 | h1, h2⟩
          · exact Or.inl h1
          · by_cases hi : i = f.osmid
            · exact Or.inl hi
            · exact Or.inr ⟨h1, fun hc => hc.elim hi h2⟩

theorem buildStationAux_station_ids (fs : List Feature) (seen : List Nat) :
    (buildStationAux fs seen).map Station.station_id =
      List.range' seen.length (buildStationAux fs seen).length := by
  induction fs generalizing seen with
  | nil => simp [buildStationAux]
  | cons f rest ih =>
      rw [buildStationAux]
      by_cases hf : f.osmid ∈ seen
      · rw [if_pos hf]; exact ih seen
      · rw [if_neg hf]
        simp only [List.map_cons, List.length_cons, List.range'_succ, mkStation]
        have := ih (f.osmid :: seen)
        simpa using this

theorem buildStationAux_first_wins {fs : List Feature} {seen : List Nat}
    {s : Station} (h : s ∈ buildStationAux fs seen) :
    ∃ f, fs.find? (fun g => g.osmid == s.osm_id) = some f ∧
      s = mkStation s.station_id f := by
  induction fs generalizing seen with
  | nil => simp [buildStationAux] at h
  | cons f rest ih =>
      rw [buildStationAux] at h
      by_cases hf : f.osmid ∈ seen
      · rw [if_pos hf] at h
        have hnot := buildStationAux_osmid_not_seen h
        have hne : (f.osmid == s.osm_id) = false := by
          simp only [beq_eq_false_iff_ne, ne_eq]
          intro hc
          exact hnot (hc ▸ hf)
        rw [List.find?_cons_of_neg _ (by simp [hne])]
        exact ih h
      · rw [if_neg hf] at h
        rcases List.mem_cons.mp h with h | h
        · refine ⟨f, ?_, ?_⟩
          · rw [List.find?_cons_of_pos _ (by simp [h, mkStation])]
          · simp [h, mkStation]
        · have hnot := buildStationAux_osmid_not_seen h
          have hne : (f.osmid == s.osm_id) = false := by
            simp only [beq_eq_false_iff_ne, ne_eq]
            intro hc
            exact hnot (hc ▸ List.mem_cons_self _ _)
          rw [List.find?_cons_of_neg _ (by simp [hne])]
          exact ih h

/-- C7: the station table has exactly one row per distinct `osmid` (the
first occurrence of the feature wins), the rows cover exactly the input
`osmid`s, and the assigned `station_id`s are `0, 1, ..., N-1` in order. -/
theorem build_station_table_invariant (stations_gdf : List Feature) :
    (((build_station_table stations_gdf).map Station.osm_id).Nodup) ∧
    (∀ i, i ∈ (build_station_table stations_gdf).map Station.osm_id ↔
        i ∈ stations_gdf.map Feature.osmid) ∧
    ((build_station_table stations_gdf).map Station.station_id =
        List.range (build_station_table stations_gdf).length) ∧
    (∀ s ∈ build_station_table stations_gdf,
        ∃ f, stations_gdf.find? (fun g => g.osmid == s.osm_id) = some f ∧
          s = mkStation s.station_id f) := by
  refine ⟨buildStationAux_osmid_nodup _ _, ?_, ?_, ?_⟩
  · intro i
    rw [build_station_table, buildStationAux_mem_osmid]
    simp
  · rw [build_station_table, buildStationAux_station_ids, List.range_eq_range']
    rfl
  · intro s hs
    exact buildStationAux_first_wins hs

/-! ### Line-resolution lemmas (claim C8) -/

theorem resolveMembers_eq_filterMap (d : List (Nat × Nat)) (ms : List Member) :
    resolveMembers d ms =
      ms.filterMap (fun m => m.mref.bind (fun r => dictLookup d r)) := by
  induction ms with
  | nil => simp [resolveMembers]
  | cons m rest ih =>
      rw [resolveMembers]
      cases hm : m.mref with
      | none => simp [List.filterMap_cons, hm, ih]
      | some r =>
          cases hd : dictLookup d r with
          | none => simp [List.filterMap_cons, hm, hd, ih]
          | some sid => simp [List.filterMap_cons, hm, hd, ih]

theorem mem_linesInsert {l : List (String × LineRec)} {k : String}
    {v : LineRec} {p : String × LineRec} (h : p ∈ linesInsert l k v) :
    p = (k, v) ∨ p ∈ l := by
  rw [linesInsert] at h
  by_cases hk : l.any (fun q => q.1 == k)
  · rw [if_pos hk] at h
    rcases List.mem_map.mp h with ⟨q, hq, hpq⟩
    by_cases hq1 : q.1 == k
    · rw [if_pos hq1] at hpq
      exact Or.inl hpq.symm
    · rw [if_neg hq1] at hpq
      exact Or.inr (hpq ▸ hq)
  · rw [if_neg hk] at h
    rcases List.mem_append.mp h with h | h
    · exact Or.inr h
    · exact Or.inl (List.mem_singleton.mp h)

theorem build_lines_foldl_mem (station_df : List Station) :
    ∀ (routes : List RouteFeature) (acc : List (String × LineRec))
      (p : String × LineRec),
      p ∈ routes.foldl
          (fun lines r =>
            match lineIdOf r with
            | none => lines
            | some lid =>
                match r.members with
                | none => lines
                | some ms =>
                    let seq := resolveMembers (osm_to_station station_df) ms
                    if 2 ≤ seq.length then
                      linesInsert lines lid
                        { lname := r.rname.getD lid, stations := seq }
                    else lines)
          acc →
      p ∈ acc ∨
        ∃ r ∈ routes, lineIdOf r = some p.1 ∧
          ∃ ms, r.members = some ms ∧
            p.2.lname = r.rname.getD p.1 ∧
            p.2.stations = resolveMembers (osm_to_station station_df) ms ∧
            2 ≤ p.2.stations.length := by
  intro routes
  induction routes with
  | nil => intro acc p h; exact Or.inl h
  | cons r rest ih =>
      intro acc p h
      rw [List.foldl_cons] at h
      rcases ih _ p h with hacc | ⟨r2, hr2, hrest⟩
      · cases hlid : lineIdOf r with
        | none => rw [hlid] at hacc; exact Or.inl hacc
        | some lid =>
            rw [hlid] at hacc
            cases hms : r.members with
            | none => rw [hms] at hacc; exact Or.inl hacc
            | some ms =>
                rw [hms] at hacc
                simp only at hacc
                by_cases hlen :
                    2 ≤ (resolveMembers (osm_to_station station_df) ms).length
                · rw [if_pos hlen] at hacc
                  rcases mem_linesInsert hacc with hp | hp
                  · refine Or.inr ⟨r, List.mem_cons_self _ _, ?_⟩
                    rw [hp]
                    exact ⟨hlid, ms, hms, rfl, rfl, hlen⟩
                  · exact Or.inl hp
                · rw [if_neg hlen] at hacc
                  exact Or.inl hacc
      · exact Or.inr ⟨r2, List.mem_cons_of_mem _ hr2, hrest⟩

/-- C8: every line kept by `build_lines` arises from a route of the input
whose ordered membership list, restricted (by `filterMap`, hence preserving
relative order and dropping unresolvable entries) to members whose `ref`
resolves through the station lookup, is exactly the line's station
sequence, of length at least 2. -/
theorem build_lines_resolution (routes_gdf : List RouteFeature)
    (station_df : List Station) :
    ∀ p ∈ build_lines routes_gdf station_df,
      2 ≤ p.2.stations.length ∧
      ∃ r ∈ routes_gdf, lineIdOf r = some p.1 ∧
        ∃ ms, r.members = some ms ∧
          p.2.stations =
            ms.filterMap
              (fun m => m.mref.bind
                (fun x => dictLookup (osm_to_station station_df) x)) := by
  intro p hp
  rcases build_lines_foldl_mem station_df routes_gdf [] p hp with h | h
  · simp at h
  · rcases h with ⟨r, hr, hlid, ms, hms, _, hstations, hlen⟩
    refine ⟨hlen, r, hr, hlid, ms, hms, ?_⟩
    rw [hstations, resolveMembers_eq_filterMap]

/-! ### Edge-store lemmas -/

theorem lookupEdge_nil (k : Nat × Nat) : lookupEdge [] k = none := rfl

theorem lookupEdge_cons (k₀ : Nat × Nat) (a₀ : EdgeAttr)
    (rest : List ((Nat × Nat) × EdgeAttr)) (k2 : Nat × Nat) :
    lookupEdge ((k₀, a₀) :: rest) k2 =
      if k2 = k₀ then some a₀ else lookupEdge rest k2 := by
  by_cases h : k2 = k₀
  · rw [lookupEdge, List.find?_cons_of_pos _ (by simp [h]), if_pos h]
    rfl
  · have h2 : ¬ k₀ = k2 := fun hc => h hc.symm
    rw [lookupEdge, List.find?_cons_of_neg _ (by simpa using h2), if_neg h]
    rfl

theorem lookupEdge_setEdge (es : List ((Nat × Nat) × EdgeAttr))
    (k k2 : Nat × Nat) (upd : Option EdgeAttr → EdgeAttr) :
    lookupEdge (setEdge es k upd) k2 =
      if k2 = k then some (upd (lookupEdge es k)) else lookupEdge es k2 := by
  induction es with
  | nil =>
      rw [setEdge, lookupEdge_cons, lookupEdge_nil, lookupEdge_nil]
  | cons e rest ih =>
      rcases e with ⟨k₀, a₀⟩
      rw [setEdge]
      by_cases h0 : k₀ = k
      · subst h0
        rw [if_pos rfl]
        by_cases h2 : k2 = k₀
        · simp [lookupEdge_cons, h2]
        · simp [lookupEdge_cons, h2]
      · rw [if_neg h0]
        have hk0 : ¬ k = k₀ := fun hc => h0 hc.symm
        simp only [lookupEdge_cons, ih]
        by_cases h2 : k2 = k₀
        · have h2k : ¬ k2 = k := fun hc => h0 (h2.symm.trans hc)
          simp [h2, h2k, h0]
        · by_cases h2k : k2 = k
          · simp [h2, h2k, hk0]
          · simp [h2, h2k]

theorem mem_setEdge {es : List ((Nat × Nat) × EdgeAttr)} {k : Nat × Nat}
    {upd : Option EdgeAttr → EdgeAttr} {e : (Nat × Nat) × EdgeAttr}
    (h : e ∈ setEdge es k upd) : (∃ o, e = (k, upd o)) ∨ e ∈ es := by
  induction es with
  | nil =>
      rw [setEdge] at h
      exact Or.inl ⟨none, List.mem_singleton.mp h⟩
  | cons e₀ rest ih =>
      rcases e₀ with ⟨k₀, a₀⟩
      rw [setEdge] at h
      by_cases h0 : k₀ = k
      · rw [if_pos h0] at h
        rcases List.mem_cons.mp h with h | h
        · exact Or.inl ⟨some a₀, h⟩
        · exact Or.inr (List.mem_cons_of_mem _ h)
      · rw [if_neg h0] at h
        rcases List.mem_cons.mp h with h | h
        · exact Or.inr (h ▸ List.mem_cons_self _ _)
        · rcases ih h with h | h
          · exact Or.inl h
          · exact Or.inr (List.mem_cons_of_mem _ h)

theorem setEdge_fst (es : List ((Nat × Nat) × EdgeAttr)) (k : Nat × Nat)
    (upd : Option EdgeAttr → EdgeAttr) :
    (setEdge es k upd).map Prod.fst =
      if k ∈ es.map Prod.fst then es.map Prod.fst
      else es.map Prod.fst ++ [k] := by
  induction es with
  | nil => simp [setEdge]
  | cons e rest ih =>
      rcases e with ⟨k₀, a₀⟩
      rw [setEdge]
      by_cases h0 : k₀ = k
      · rw [if_pos h0]
        simp [h0]
      · rw [if_neg h0]
        have : ¬ k = k₀ := fun hc => h0 hc.symm
        simp only [List.map_cons, List.mem_cons, this, false_or]
        by_cases hk : k ∈ rest.map Prod.fst
        · simp [hk, ih]
        · simp [hk, ih]

theorem setEdge_fst_nodup {es : List ((Nat × Nat) × EdgeAttr)}
    (h : (es.map Prod.fst).Nodup) (k : Nat × Nat)
    (upd : Option EdgeAttr → EdgeAttr) :
    ((setEdge es k upd).map Prod.fst).Nodup := by
  rw [setEdge_fst]
  by_cases hk : k ∈ es.map Prod.fst
  · rwa [if_pos hk]
  · rw [if_neg hk]
    refine List.Nodup.append h (List.nodup_singleton k) ?_
    intro x hx hx1
    exact hk ((List.mem_singleton.mp hx1) ▸ hx)

theorem lookupEdge_mem {es : List ((Nat × Nat) × EdgeAttr)} {k : Nat × Nat}
    {a : EdgeAttr} (h : lookupEdge es k = some a) : (k, a) ∈ es := by
  rw [lookupEdge] at h
  cases hf : es.find? (fun p => p.1 = k) with
  | none => rw [hf] at h; cases h
  | some p =>
      rw [hf] at h
      rcases p with ⟨pk, pa⟩
      have hp : pk = k := by simpa using List.find?_some hf
      have hm := List.mem_of_find?_eq_some hf
      have ha : pa = a := by simpa using h
      rw [hp, ha] at hm
      exact hm

/-! ### Pass-level lemmas -/

theorem foldl_add_node_edges (l : List (Nat × Station)) :
    ∀ g : Graph,
      (l.foldl
        (fun g p =>
          add_node g p.2.station_id
            { nm := PyVal.int p.1, lat := p.2.lat, lon := p.2.lon })
        g).edges = g.edges := by
  induction l with
  | nil => intro g; rfl
  | cons p rest ih =>
      intro g
      rw [List.foldl_cons, ih]
      rfl

theorem addNodesPass_edges (stations : List Station) (g : Graph) :
    (addNodesPass stations g).edges = g.edges := by
  rw [addNodesPass]
  exact foldl_add_node_edges _ g

/-- One metro or walking pair-insertion, as it acts on the edge store. -/
def addPair (es : List ((Nat × Nat) × EdgeAttr)) (u v : Nat)
    (f : Option EdgeAttr → EdgeAttr) : List ((Nat × Nat) × EdgeAttr) :=
  setEdge (setEdge es (u, v) f) (v, u) f

theorem addLineEdges_preserve (ox : Oracles) (stations : List Station)
    (lid : String) (P : List ((Nat × Nat) × EdgeAttr) → Prop)
    (hstep : ∀ es u v d t, P es → P (addPair es u v (metroUpd lid d t))) :
    ∀ (ps : List (Nat × Nat)) (g : Graph) (tracks : List TrackRow)
      (g2 : Graph) (t2 : List TrackRow),
      addLineEdges ox stations lid ps g tracks = .ok (g2, t2) →
      P g.edges → P g2.edges := by
  intro ps
  induction ps with
  | nil =>
      intro g tracks g2 t2 h hp
      rw [addLineEdges] at h
      cases h
      exact hp
  | cons p rest ih =>
      intro g tracks g2 t2 h hp
      rcases p with ⟨a, b⟩
      rw [addLineEdges] at h
      cases hfa : stations.find? (fun s => s.station_id == a) with
      | none => rw [hfa] at h; cases h
      | some sa =>
          cases hfb : stations.find? (fun s => s.station_id == b) with
          | none => rw [hfa, hfb] at h; cases h
          | some sb =>
              rw [hfa, hfb] at h
              simp only at h
              cases hmd : metro_distance ox sa sb tracks with
              | mk md tracks2 =>
                  cases md with
                  | none => rw [hmd] at h; simp at h
                  | some dist =>
                      rw [hmd] at h
                      simp only at h
                      exact ih _ _ _ _ h (hstep _ _ _ _ _ hp)

theorem metroPass_preserve (ox : Oracles) (stations : List Station)
    (P : List ((Nat × Nat) × EdgeAttr) → Prop)
    (hstep : ∀ lid es u v d t, P es → P (addPair es u v (metroUpd lid d t))) :
    ∀ (ls : List (String × LineRec)) (g : Graph) (tracks : List TrackRow)
      (g2 : Graph) (t2 : List TrackRow),
      metroPass ox stations ls g tracks = .ok (g2, t2) →
      P g.edges → P g2.edges := by
  intro ls
  induction ls with
  | nil =>
      intro g tracks g2 t2 h hp
      rw [metroPass] at h
      cases h
      exact hp
  | cons l rest ih =>
      intro g tracks g2 t2 h hp
      rcases l with ⟨lid, line⟩
      rw [metroPass] at h
      cases hadd : addLineEdges ox stations lid
          (line.stations.zip line.stations.tail) g tracks with
      | error e => rw [hadd] at h; cases h
      | ok gt =>
          rcases gt with ⟨g1, t1⟩
          rw [hadd] at h
          simp only at h
          exact ih _ _ _ _ h
            (addLineEdges_preserve ox stations lid P (hstep lid) _ _ _ _ _
              hadd hp)

/-- What one walking step does to the graph: it either leaves it unchanged,
or — only when the pair passed the 1500 m prefilter — inserts a
bidirectional walking edge pair. -/
theorem walkStep_cases {ox : Oracles} {wn : List (Nat × Nat)}
    {s1 s2 : Station} {g g2 : Graph}
    (h : walkStep ox wn s1 s2 g = .ok g2) :
    g2 = g ∨
      (¬ 1500 < ox.great_circle s1.lat s1.lon s2.lat s2.lon ∧
        ∃ d t, g2.edges =
          addPair g.edges s1.station_id s2.station_id (walkUpd d t) ∧
          g2.nodes = g.nodes) := by
  rw [walkStep] at h
  by_cases hgc : 1500 < ox.great_circle s1.lat s1.lon s2.lat s2.lon
  · rw [if_pos hgc] at h
    cases h
    exact Or.inl rfl
  · rw [if_neg hgc] at h
    cases hn1 : dictLookup wn s1.station_id with
    | none => rw [hn1] at h; cases h
    | some n1 =>
        cases hn2 : dictLookup wn s2.station_id with
        | none => rw [hn1, hn2] at h; cases h
        | some n2 =>
            rw [hn1, hn2] at h
            simp only at h
            cases hsp : ox.shortest_path_length n1 n2 with
            | none => rw [hsp] at h; cases h
            | some d_walk =>
                rw [hsp] at h
                simp only at h
                by_cases hadm :
                    walking_is_admissible d_walk
                      (ox.great_circle s1.lat s1.lon s2.lat s2.lon) = true
                · rw [if_pos hadm] at h
                  cases h
                  exact Or.inr ⟨hgc,
                    d_walk, d_walk * seconds_per_meter avg_walk_speed_kmh,
                    rfl, rfl⟩
                · rw [if_neg hadm] at h
                  cases h
                  exact Or.inl rfl

theorem walkPass_preserve (ox : Oracles) (wn : List (Nat × Nat))
    (P : List ((Nat × Nat) × EdgeAttr) → Prop)
    (Q : Station → Station → Prop)
    (hstep : ∀ s1 s2 es d t, Q s1 s2 → P es →
      P (addPair es s1.station_id s2.station_id (walkUpd d t))) :
    ∀ (ps : List (Station × Station)) (g : Graph) (g2 : Graph),
      (∀ pr ∈ ps, Q pr.1 pr.2) →
      walkPass ox wn ps g = .ok g2 →
      P g.edges → P g2.edges := by
  intro ps
  induction ps with
  | nil =>
      intro g g2 _ h hp
      rw [walkPass] at h
      cases h
      exact hp
  | cons pr rest ih =>
      intro g g2 hq h hp
      rcases pr with ⟨s1, s2⟩
      rw [walkPass] at h
      cases hws : walkStep ox wn s1 s2 g with
      | error e => rw [hws] at h; cases h
      | ok g1 =>
          rw [hws] at h
          simp only at h
          have hq1 : ∀ pr ∈ rest, Q pr.1 pr.2 :=
            fun pr hpr => hq pr (List.mem_cons_of_mem _ hpr)
          rcases walkStep_cases hws with heq | ⟨_, d, t, hes, _⟩
          · exact ih _ _ hq1 h (heq ▸ hp)
          · refine ih _ _ hq1 h ?_
            rw [hes]
            exact hstep s1 s2 _ d t (hq (s1, s2) (List.mem_cons_self _ _)) hp

/-! ### Invariant-step lemmas -/

/-- Mirror symmetry of the edge store: the two orientations of every pair
carry the same attribute dict (or are both absent). -/
def EdgeSymm (es : List ((Nat × Nat) × EdgeAttr)) : Prop :=
  ∀ u v : Nat, lookupEdge es (u, v) = lookupEdge es (v, u)

theorem edgeSymm_nil : EdgeSymm [] := fun _ _ => rfl

theorem edgeSymm_addPair {es : List ((Nat × Nat) × EdgeAttr)}
    (h : EdgeSymm es) (u v : Nat) (f : Option EdgeAttr → EdgeAttr) :
    EdgeSymm (addPair es u v f) := by
  intro x y
  simp only [addPair, lookupEdge_setEdge, Prod.mk.injEq]
  by_cases hxv : x = v <;> by_cases hyu : y = u <;> by_cases hxu : x = u <;>
      by_cases hyv : y = v <;>
    simp_all <;>
    first
      | rfl
      | exact h _ _
      | rw [h u v]

def AllMetro (es : List ((Nat × Nat) × EdgeAttr)) : Prop :=
  ∀ e ∈ es, e.2.mode = Mode.metro

theorem allMetro_addPair {es : List ((Nat × Nat) × EdgeAttr)}
    (h : AllMetro es) (u v : Nat) (lid : String) (d t : ℚ) :
    AllMetro (addPair es u v (metroUpd lid d t)) := by
  intro e he
  rcases mem_setEdge he with ⟨o, rfl⟩ | he2
  · rfl
  · rcases mem_setEdge he2 with ⟨o, rfl⟩ | he3
    · rfl
    · exact h e he3

theorem addPair_fst_nodup {es : List ((Nat × Nat) × EdgeAttr)}
    (h : (es.map Prod.fst).Nodup) (u v : Nat)
    (f : Option EdgeAttr → EdgeAttr) :
    ((addPair es u v f).map Prod.fst).Nodup :=
  setEdge_fst_nodup (setEdge_fst_nodup h _ _) _ _

/-- Any self-loop in the edge store is a metro edge. -/
def SelfLoopMetro (es : List ((Nat × Nat) × EdgeAttr)) : Prop :=
  ∀ x a, lookupEdge es (x, x) = some a → a.mode = Mode.metro

theorem selfLoopMetro_of_allMetro {es : List ((Nat × Nat) × EdgeAttr)}
    (h : AllMetro es) : SelfLoopMetro es :=
  fun _ a ha => h (_, a) (lookupEdge_mem ha)

theorem selfLoopMetro_addPair_walk {es : List ((Nat × Nat) × EdgeAttr)}
    (h : SelfLoopMetro es) {s1 s2 : Nat} (hne : s1 ≠ s2) (d t : ℚ) :
    SelfLoopMetro (addPair es s1 s2 (walkUpd d t)) := by
  intro x a ha
  have h1 : ¬ ((x, x) = (s2, s1)) := by
    simp only [Prod.mk.injEq, not_and]
    intro ha1 ha2
    exact hne (ha2.symm.trans ha1)
  have h2 : ¬ ((x, x) = (s1, s2)) := by
    simp only [Prod.mk.injEq, not_and]
    intro ha1 ha2
    exact hne (ha1.symm.trans ha2)
  rw [addPair, lookupEdge_setEdge, if_neg h1, lookupEdge_setEdge,
    if_neg h2] at ha
  exact h x a ha

/-! ### `build_graph` decomposition and pair enumeration -/

theorem build_graph_ok {ox : Oracles} {stations : List Station}
    {lines : List (String × LineRec)} {tracks : List TrackRow} {g : Graph}
    (h : build_graph ox stations lines tracks = .ok g) :
    ∃ g2 t2,
      metroPass ox stations lines
        (addNodesPass stations { nodes := [], edges := [] }) tracks =
          .ok (g2, t2) ∧
      walkPass ox (walk_nodes_dict ox stations) (walkPairs stations) g2 =
        .ok g := by
  simp only [build_graph] at h
  cases hmp : metroPass ox stations lines
      (addNodesPass stations { nodes := [], edges := [] }) tracks with
  | error e => rw [hmp] at h; cases h
  | ok gt =>
      rcases gt with ⟨g2, t2⟩
      rw [hmp] at h
      simp only at h
      exact ⟨g2, t2, rfl, h⟩

theorem mem_walkPairs {stations : List Station} {pr : Station × Station}
    (h : pr ∈ walkPairs stations) :
    ∃ i j : Nat, i < j ∧ stations[i]? = some pr.1 ∧
      stations[j]? = some pr.2 := by
  rw [walkPairs] at h
  rcases List.mem_flatten.mp h with ⟨l, hl, hpr⟩
  rcases List.mem_map.mp hl with ⟨p, hp, rfl⟩
  rcases List.mem_filterMap.mp hpr with ⟨q, hq, hpq⟩
  by_cases hij : p.1 < q.1
  · rw [if_pos hij] at hpq
    have hp2 : stations[p.1]? = some p.2 :=
      List.mem_enum_iff_getElem?.mp hp
    have hq2 : stations[q.1]? = some q.2 :=
      List.mem_enum_iff_getElem?.mp hq
    have hpr2 : (p.2, q.2) = pr := Option.some.inj hpq
    subst hpr2
    exact ⟨p.1, q.1, hij, hp2, hq2⟩
  · rw [if_neg hij] at hpq
    cases hpq

theorem walkPairs_ne_ids {stations : List Station}
    (hnodup : (stations.map Station.station_id).Nodup)
    {pr : Station × Station} (h : pr ∈ walkPairs stations) :
    pr.1.station_id ≠ pr.2.station_id := by
  rcases mem_walkPairs h with ⟨i, j, hij, hi, hj⟩
  intro hc
  have hmi : (stations.map Station.station_id)[i]? = some pr.1.station_id := by
    rw [List.getElem?_map, hi]
    rfl
  have hmj : (stations.map Station.station_id)[j]? = some pr.2.station_id := by
    rw [List.getElem?_map, hj]
    rfl
  have hilen : i < (stations.map Station.station_id).length := by
    rw [List.length_map]
    exact (List.getElem?_eq_some.mp hi).1
  have : i = j := by
    refine List.getElem?_inj hilen hnodup ?_
    rw [hmi, hmj, hc]
  omega

theorem walkPass_lookup_far (ox : Oracles) (wn : List (Nat × Nat))
    (x y : Nat) :
    ∀ (ps : List (Station × Station)) (g g2 : Graph),
      walkPass ox wn ps g = .ok g2 →
      (∀ pr ∈ ps,
        ((pr.1.station_id = x ∧ pr.2.station_id = y) ∨
          (pr.1.station_id = y ∧ pr.2.station_id = x)) →
        1500 < ox.great_circle pr.1.lat pr.1.lon pr.2.lat pr.2.lon) →
      lookupEdge g2.edges (x, y) = lookupEdge g.edges (x, y) ∧
      lookupEdge g2.edges (y, x) = lookupEdge g.edges (y, x) := by
  intro ps
  induction ps with
  | nil =>
      intro g g2 h _
      rw [walkPass] at h
      cases h
      exact ⟨rfl, rfl⟩
  | cons pr rest ih =>
      intro g g2 h hfar
      rcases pr with ⟨s1, s2⟩
      rw [walkPass] at h
      cases hws : walkStep ox wn s1 s2 g with
      | error e => rw [hws] at h; cases h
      | ok g1 =>
          rw [hws] at h
          simp only at h
          have hfar1 : ∀ pr ∈ rest,
              ((pr.1.station_id = x ∧ pr.2.station_id = y) ∨
                (pr.1.station_id = y ∧ pr.2.station_id = x)) →
              1500 < ox.great_circle pr.1.lat pr.1.lon pr.2.lat pr.2.lon :=
            fun pr hpr => hfar pr (List.mem_cons_of_mem _ hpr)
          rcases walkStep_cases hws with rfl | ⟨hgc, d, t, hes, _⟩
          · exact ih _ _ h hfar1
          · have ihr := ih g1 g2 h hfar1
            have hnot : ¬ ((s1.station_id = x ∧ s2.station_id = y) ∨
                (s1.station_id = y ∧ s2.station_id = x)) := by
              intro hm
              exact hgc (hfar (s1, s2) (List.mem_cons_self _ _) hm)
            have hno1 : ¬ ((x, y) = (s2.station_id, s1.station_id)) := by
              simp only [Prod.mk.injEq, not_and]
              intro h1 h2
              exact hnot (Or.inr ⟨h2.symm, h1.symm⟩)
            have hno2 : ¬ ((x, y) = (s1.station_id, s2.station_id)) := by
              simp only [Prod.mk.injEq, not_and]
              intro h1 h2
              exact hnot (Or.inl ⟨h1.symm, h2.symm⟩)
            have hno3 : ¬ ((y, x) = (s2.station_id, s1.station_id)) := by
              simp only [Prod.mk.injEq, not_and]
              intro h1 h2
              exact hnot (Or.inl ⟨h2.symm, h1.symm⟩)
            have hno4 : ¬ ((y, x) = (s1.station_id, s2.station_id)) := by
              simp only [Prod.mk.injEq, not_and]
              intro h1 h2
              exact hnot (Or.inr ⟨h1.symm, h2.symm⟩)
            constructor
            · rw [ihr.1, hes, addPair, lookupEdge_setEdge, if_neg hno1,
                lookupEdge_setEdge, if_neg hno2]
            · rw [ihr.2, hes, addPair, lookupEdge_setEdge, if_neg hno3,
                lookupEdge_setEdge, if_neg hno4]

/-! ### Concrete scenarios -/

/-- Oracles for a pair 500 m apart (great circle) with routed walking
distance 100 m; a single track geometry 800 m of projected span. -/
def oxWalk100 : Oracles :=
  { toUTM := fun lon lat => (lon, lat)
    geomDistToPoint := fun _ _ => 7
    nearestPointOn := fun _ p => p
    pointDist := fun _ _ => 800
    nearest_nodes := fun _ _ => 0
    great_circle := fun _ _ _ _ => 500
    shortest_path_length := fun _ _ => some 100 }

/-- Same, but the routed walking distance is 650 m. -/
def oxWalk650 : Oracles :=
  { oxWalk100 with shortest_path_length := fun _ _ => some 650 }

/-- Same pair geometry, but the pedestrian network has no path between the
anchors: `shortest_path_length` raises (`none`). -/
def oxNoPath : Oracles :=
  { oxWalk100 with
    great_circle := fun _ _ _ _ => 100
    shortest_path_length := fun _ _ => none }

/-- All station pairs are 2000 m apart: the walking prefilter skips every
pair. -/
def oxFar : Oracles :=
  { oxWalk100 with great_circle := fun _ _ _ _ => 2000 }

def stPair : List Station := [⟨0, 10, "A", 0, 0⟩, ⟨1, 20, "B", 1, 1⟩]

def stOne : List Station := [⟨0, 10, "X", 31, 121⟩]

def trkOne : List TrackRow := [⟨5, none⟩]

def lnOne : List (String × LineRec) := [("L1", ⟨"Line 1", [0, 1]⟩)]

def lnTwo : List (String × LineRec) :=
  [("L1", ⟨"L1", [0, 1]⟩), ("L2", ⟨"L2", [0, 1]⟩)]

theorem walking_is_admissible_650_500 :
    walking_is_admissible 650 500 = false := by
  rw [Bool.eq_false_iff, Ne, walking_is_admissible_iff]
  norm_num [seconds_per_meter, avg_walk_speed_kmh, metro_cruise_speed_kmh,
    dwell_time_s, minimum_platform_access_time_s]

theorem walking_is_admissible_100_500 :
    walking_is_admissible 100 500 = true := by
  rw [walking_is_admissible_iff]
  norm_num [seconds_per_meter, avg_walk_speed_kmh, metro_cruise_speed_kmh,
    dwell_time_s, minimum_platform_access_time_s]

theorem walk_time_100 :
    (100 : ℚ) * seconds_per_meter avg_walk_speed_kmh = 75 := by
  norm_num [seconds_per_meter, avg_walk_speed_kmh]

theorem metro_time_800 :
    (800 : ℚ) * seconds_per_meter metro_cruise_speed_kmh + dwell_time_s =
      102 := by
  norm_num [seconds_per_meter, metro_cruise_speed_kmh, dwell_time_s]

/-- The graph built for `stPair` with no lines and routed walking distance
100 m. -/
def gWalk100 : Graph :=
  { nodes := [(0, ⟨.int 0, 0, 0⟩), (1, ⟨.int 1, 1, 1⟩)]
    edges := [((0, 1), ⟨.walk, none, 100, 75⟩),
              ((1, 0), ⟨.walk, none, 100, 75⟩)] }

theorem build_oxWalk100 :
    build_graph oxWalk100 stPair [] trkOne = .ok gWalk100 := by
  norm_num [build_graph, oxWalk100, stPair, trkOne, gWalk100, metroPass,
    addNodesPass, add_node, setNode, walkPass, walkStep, walkPairs,
    walk_nodes_dict, dictLookup, add_edge, setEdge, walkUpd,
    walking_is_admissible_100_500, walk_time_100, List.enum]

theorem build_oxWalk650 :
    build_graph oxWalk650 stPair [] trkOne =
      .ok { nodes := gWalk100.nodes, edges := [] } := by
  norm_num [build_graph, oxWalk650, oxWalk100, stPair, trkOne, gWalk100,
    metroPass, addNodesPass, add_node, setNode, walkPass, walkStep,
    walkPairs, walk_nodes_dict, dictLookup, add_edge, setEdge, walkUpd,
    walking_is_admissible_650_500, List.enum]

/-- The graph built for `stPair` with the two lines of `lnTwo` (both over
the same station pair) and every pair beyond the walking prefilter. -/
def gTwoLines : Graph :=
  { nodes := gWalk100.nodes
    edges := [((0, 1), ⟨.metro, some "L2", 800, 102⟩),
              ((1, 0), ⟨.metro, some "L2", 800, 102⟩)] }

theorem build_lnTwo :
    build_graph oxFar stPair lnTwo trkOne = .ok gTwoLines := by
  norm_num [build_graph, oxFar, oxWalk100, stPair, trkOne, lnTwo, gTwoLines,
    gWalk100, metroPass, addLineEdges, metro_distance, assignDist,
    argminByDist, metroUpd, addNodesPass, add_node, setNode, walkPass,
    walkStep, walkPairs, walk_nodes_dict, dictLookup, add_edge, setEdge,
    metro_time_800, List.enum, List.zip]

theorem build_stOne :
    build_graph oxFar stOne [] trkOne =
      .ok { nodes := [(0, ⟨.int 0, 31, 121⟩)], edges := [] } := by
  norm_num [build_graph, oxFar, oxWalk100, stOne, trkOne, metroPass,
    addNodesPass, add_node, setNode, walkPass, walkStep, walkPairs,
    walk_nodes_dict, dictLookup, add_edge, setEdge, List.enum]

/-! ### Assembled build-graph invariants -/

theorem build_graph_edges_nodup_aux {ox : Oracles} {stations : List Station}
    {lines : List (String × LineRec)} {tracks : List TrackRow} {g : Graph}
    (hg : build_graph ox stations lines tracks = .ok g) :
    (g.edges.map Prod.fst).Nodup := by
  rcases build_graph_ok hg with ⟨g2, t2, hmp, hwp⟩
  have h0 : ((addNodesPass stations
      { nodes := [], edges := [] }).edges.map Prod.fst).Nodup := by
    rw [addNodesPass_edges]
    exact List.nodup_nil
  have h1 := metroPass_preserve ox stations
    (fun es => (es.map Prod.fst).Nodup)
    (fun lid es u v d t h => addPair_fst_nodup h u v _) _ _ _ _ _ hmp h0
  exact walkPass_preserve ox _ (fun es => (es.map Prod.fst).Nodup)
    (fun _ _ => True) (fun s1 s2 es d t _ h => addPair_fst_nodup h _ _ _)
    _ _ _ (fun _ _ => trivial) hwp h1

theorem build_graph_symm_aux {ox : Oracles} {stations : List Station}
    {lines : List (String × LineRec)} {tracks : List TrackRow} {g : Graph}
    (hg : build_graph ox stations lines tracks = .ok g) :
    EdgeSymm g.edges := by
  rcases build_graph_ok hg with ⟨g2, t2, hmp, hwp⟩
  have h0 : EdgeSymm (addNodesPass stations
      { nodes := [], edges := [] }).edges := by
    rw [addNodesPass_edges]
    exact edgeSymm_nil
  have h1 := metroPass_preserve ox stations EdgeSymm
    (fun lid es u v d t h => edgeSymm_addPair h u v _) _ _ _ _ _ hmp h0
  exact walkPass_preserve ox _ EdgeSymm (fun _ _ => True)
    (fun s1 s2 es d t _ h => edgeSymm_addPair h _ _ _)
    _ _ _ (fun _ _ => trivial) hwp h1

theorem build_graph_metro_pass_allMetro {ox : Oracles}
    {stations : List Station} {lines : List (String × LineRec)}
    {tracks : List TrackRow} {g2 : Graph} {t2 : List TrackRow}
    (hmp : metroPass ox stations lines
      (addNodesPass stations { nodes := [], edges := [] }) tracks =
        .ok (g2, t2)) :
    AllMetro g2.edges := by
  have h0 : AllMetro (addNodesPass stations
      { nodes := [], edges := [] }).edges := by
    rw [addNodesPass_edges]
    intro e he
    cases he
  exact metroPass_preserve ox stations AllMetro
    (fun lid es u v d t h => allMetro_addPair h u v lid d t) _ _ _ _ _ hmp h0

/-! ### Claim theorems -/

/-- C1: the claim says a station pair inside the 1500 m prefilter whose
anchors have no path in the pedestrian network is silently skipped and the
build continues; the code does not catch the `NetworkXNoPath` exception of
`nx.shortest_path_length`, so the whole build aborts instead.  At a
two-station table 100 m apart with a disconnected pedestrian network,
`build_graph` ends in the `noWalkPath` error. -/
theorem no_path_aborts_build :
    build_graph oxNoPath stPair [] trkOne = .error .noWalkPath := by
  norm_num [build_graph, oxNoPath, oxWalk100, stPair, trkOne, metroPass,
    addNodesPass, add_node, setNode, walkPass, walkStep, walkPairs,
    walk_nodes_dict, dictLookup, add_edge, setEdge, List.enum]

/-- C2 counterexample: with two lines `L1`, `L2` both containing the
consecutive pair `(0, 1)`, the built graph holds exactly ONE directed edge
from 0 to 1 — not one per line — and it carries the tag of the
last-processed line `L2`: `networkx.DiGraph` keys edges by the endpoint
pair alone, so the claimed per-line parallel edges do not exist. -/
theorem parallel_lines_single_edge_counterexample :
    build_graph oxFar stPair lnTwo trkOne = .ok gTwoLines ∧
    (gTwoLines.edges.filter (fun e => e.1 = (0, 1))).length = 1 ∧
    lookupEdge gTwoLines.edges (0, 1) =
      some ⟨.metro, some "L2", 800, 102⟩ := by
  refine ⟨build_lnTwo, by decide, by decide⟩

/-- C2 (amended): the edge collection is keyed by `(from, to)` alone: every
successful build has pairwise distinct directed edge keys, so two lines
sharing a consecutive pair yield a single edge pair (the later line's
attributes overwriting the earlier line's), not parallel edges. -/
theorem edge_keys_unique (ox : Oracles) (stations : List Station)
    (lines : List (String × LineRec)) (tracks : List TrackRow) (g : Graph)
    (hg : build_graph ox stations lines tracks = .ok g) :
    (g.edges.map Prod.fst).Nodup :=
  build_graph_edges_nodup_aux hg

theorem edge_keys_unique_witness :
    (gWalk100.edges.map Prod.fst).Nodup :=
  edge_keys_unique oxWalk100 stPair [] trkOne gWalk100 build_oxWalk100

/-- C3: the claim says every graph node carries the station's `name`
string; in the code, `s.name` on an `iterrows()` row is the pandas Series
name — the row's index label — so the node's `name` attribute is the row
index (an integer), not the station's name string.  For a table with one
station named `"X"`, the node attribute is the integer 0, with only `lat`
and `lon` carried correctly. -/
theorem node_name_attr_is_row_index :
    build_graph oxFar stOne [] trkOne =
      .ok { nodes := [(0, ⟨PyVal.int 0, 31, 121⟩)], edges := [] } ∧
    lookupNode [(0, (⟨PyVal.int 0, 31, 121⟩ : NodeAttr))] 0 =
      some ⟨PyVal.int 0, 31, 121⟩ ∧
    PyVal.int 0 ≠ PyVal.str "X" := by
  refine ⟨build_stOne, by decide, by decide⟩

/-- C4: a walking edge is admissible iff
`dist_walk_m * seconds_per_meter(4.8) <
 euclid_m * seconds_per_meter(40.0) + (30 + 120)`; at euclidean distance
500 m, routed distance 650 m walks in 487.5 s against a 195 s bound, so no
walking edge is built, while routed distance 100 m walks in 75 s, so a
walking edge with `distance_m = 100`, `time_s = 75` is built. -/
theorem walking_admissibility_rule :
    (∀ dist_walk_m euclid_m : ℚ,
      walking_is_admissible dist_walk_m euclid_m = true ↔
        dist_walk_m * seconds_per_meter 4.8 <
          euclid_m * seconds_per_meter 40.0 + (30 + 120)) ∧
    ((650 : ℚ) * seconds_per_meter 4.8 = 487.5) ∧
    ((500 : ℚ) * seconds_per_meter 40.0 + (30 + 120) = 195) ∧
    walking_is_admissible 650 500 = false ∧
    build_graph oxWalk650 stPair [] trkOne =
      .ok { nodes := gWalk100.nodes, edges := [] } ∧
    ((100 : ℚ) * seconds_per_meter 4.8 = 75) ∧
    walking_is_admissible 100 500 = true ∧
    build_graph oxWalk100 stPair [] trkOne = .ok gWalk100 ∧
    lookupEdge gWalk100.edges (0, 1) = some ⟨.walk, none, 100, 75⟩ := by
  refine ⟨fun d e => walking_is_admissible_iff d e, ?_, ?_,
    walking_is_admissible_650_500, build_oxWalk650, ?_,
    walking_is_admissible_100_500, build_oxWalk100, by decide⟩
  · norm_num [seconds_per_meter]
  · norm_num [seconds_per_meter]
  · norm_num [seconds_per_meter]

/-- C5: for every edge of a successfully built graph, the reverse-direction
edge exists with the identical attribute record — same `distance_m`,
`time_s`, `mode`, and `line` tag. -/
theorem edge_mirror (ox : Oracles) (stations : List Station)
    (lines : List (String × LineRec)) (tracks : List TrackRow) (g : Graph)
    (hg : build_graph ox stations lines tracks = .ok g) :
    ∀ (u v : Nat) (a : EdgeAttr),
      lookupEdge g.edges (u, v) = some a →
      lookupEdge g.edges (v, u) = some a := by
  have hsym := build_graph_symm_aux hg
  intro u v a ha
  rw [← hsym u v]
  exact ha

theorem edge_mirror_witness :
    lookupEdge gWalk100.edges (1, 0) =
      some ⟨Mode.walk, none, 100, 75⟩ :=
  edge_mirror oxWalk100 stPair [] trkOne gWalk100 build_oxWalk100 0 1
    ⟨Mode.walk, none, 100, 75⟩ (by decide)

/-- C6: if every occurrence of the station-id pair `{x, y}` among the
stations lies beyond the 1500 m great-circle prefilter, then the built
graph has no walking edge between `x` and `y` in either direction (any
edge present there is a metro edge), regardless of the routed pedestrian
distances. -/
theorem prefilter_blocks_walk_edges (ox : Oracles) (stations : List Station)
    (lines : List (String × LineRec)) (tracks : List TrackRow) (g : Graph)
    (x y : Nat)
    (hg : build_graph ox stations lines tracks = .ok g)
    (hfar : ∀ s1 ∈ stations, ∀ s2 ∈ stations,
      ((s1.station_id = x ∧ s2.station_id = y) ∨
        (s1.station_id = y ∧ s2.station_id = x)) →
      1500 < ox.great_circle s1.lat s1.lon s2.lat s2.lon) :
    (∀ a, lookupEdge g.edges (x, y) = some a → a.mode = Mode.metro) ∧
    (∀ a, lookupEdge g.edges (y, x) = some a → a.mode = Mode.metro) := by
  rcases build_graph_ok hg with ⟨g2, t2, hmp, hwp⟩
  have h1 : AllMetro g2.edges := build_graph_metro_pass_allMetro hmp
  have hps : ∀ pr ∈ walkPairs stations,
      ((pr.1.station_id = x ∧ pr.2.station_id = y) ∨
        (pr.1.station_id = y ∧ pr.2.station_id = x)) →
      1500 < ox.great_circle pr.1.lat pr.1.lon pr.2.lat pr.2.lon := by
    intro pr hpr hm
    rcases mem_walkPairs hpr with ⟨i, j, _, hi, hj⟩
    exact hfar pr.1 (List.getElem?_mem hi) pr.2 (List.getElem?_mem hj) hm
  have hlk := walkPass_lookup_far ox (walk_nodes_dict ox stations) x y
    (walkPairs stations) g2 g hwp hps
  constructor
  · intro a ha
    rw [hlk.1] at ha
    exact h1 ((x, y), a) (lookupEdge_mem ha)
  · intro a ha
    rw [hlk.2] at ha
    exact h1 ((y, x), a) (lookupEdge_mem ha)

theorem prefilter_blocks_walk_edges_witness :
    (∀ a, lookupEdge gTwoLines.edges (0, 1) = some a →
      a.mode = Mode.metro) ∧
    (∀ a, lookupEdge gTwoLines.edges (1, 0) = some a →
      a.mode = Mode.metro) :=
  prefilter_blocks_walk_edges oxFar stPair lnTwo trkOne gTwoLines 0 1
    build_lnTwo
    (by intro s1 _ s2 _ _; norm_num [oxFar, oxWalk100])

/-- C10: in a successful build over stations with pairwise-distinct
station ids, the walking pass — which enumerates only index pairs
`i < j` — creates no walk self-loop and at most one edge per ordered key:
every edge key occurs once, and any self-loop edge is a metro edge. -/
theorem walk_pass_no_self_loop (ox : Oracles) (stations : List Station)
    (lines : List (String × LineRec)) (tracks : List TrackRow) (g : Graph)
    (hg : build_graph ox stations lines tracks = .ok g)
    (hnodup : (stations.map Station.station_id).Nodup) :
    ((g.edges.map Prod.fst).Nodup) ∧
    (∀ x a, lookupEdge g.edges (x, x) = some a → a.mode = Mode.metro) := by
  refine ⟨build_graph_edges_nodup_aux hg, ?_⟩
  rcases build_graph_ok hg with ⟨g2, t2, hmp, hwp⟩
  have h1 : SelfLoopMetro g2.edges :=
    selfLoopMetro_of_allMetro (build_graph_metro_pass_allMetro hmp)
  exact walkPass_preserve ox _ SelfLoopMetro
    (fun s1 s2 => s1.station_id ≠ s2.station_id)
    (fun s1 s2 es d t hq h => selfLoopMetro_addPair_walk h hq d t)
    _ _ _ (fun pr hpr => walkPairs_ne_ids hnodup hpr) hwp h1

theorem walk_pass_no_self_loop_witness :
    ((gWalk100.edges.map Prod.fst).Nodup) ∧
    (∀ x a, lookupEdge gWalk100.edges (x, x) = some a →
      a.mode = Mode.metro) :=
  walk_pass_no_self_loop oxWalk100 stPair [] trkOne gWalk100
    build_oxWalk100 (by decide)

/-! ### `metro_distance` state (claim C9) -/

theorem assignDist_twice (ox : Oracles) (p p2 : ℚ × ℚ)
    (ts : List TrackRow) :
    assignDist ox p (assignDist ox p2 ts) = assignDist ox p ts := by
  rw [assignDist, assignDist, assignDist, List.map_map]
  rfl

theorem metro_distance_snd (ox : Oracles) (sa sb : Station)
    (tracks : List TrackRow) :
    (metro_distance ox sa sb tracks).2 =
      assignDist ox (ox.toUTM sa.lon sa.lat) tracks := by
  simp only [metro_distance]
  cases argminByDist (assignDist ox (ox.toUTM sa.lon sa.lat) tracks) <;> rfl

/-- C9 counterexample: one `metro_distance` call does mutate the track
collection — the returned collection differs from the input (the `dist`
column has been written). -/
theorem metro_distance_mutation_counterexample :
    (metro_distance oxWalk100 ⟨0, 10, "A", 0, 0⟩ ⟨1, 20, "B", 1, 1⟩
      trkOne).2 ≠ trkOne := by
  decide

/-- C9 (amended): `metro_distance` writes every row's `dist` column (the
shapely distance of that row's geometry to the first station's projected
point), mutating the shared track collection; but the geometries are
unchanged and the written values depend only on the geometries and the
first station, so a repeated call over the returned collection yields the
identical result and state. -/
theorem metro_distance_geoms_idempotent (ox : Oracles) (sa sb : Station)
    (tracks : List TrackRow) :
    ((metro_distance ox sa sb tracks).2.map TrackRow.geom =
      tracks.map TrackRow.geom) ∧
    metro_distance ox sa sb ((metro_distance ox sa sb tracks).2) =
      metro_distance ox sa sb tracks := by
  constructor
  · rw [metro_distance_snd, assignDist, List.map_map]
    rfl
  · rw [metro_distance_snd]
    simp only [metro_distance, assignDist_twice]

/-! ### C8 witness scenario -/

def stW : List Station := [⟨0, 10, "A", 2, 1⟩, ⟨1, 20, "B", 6, 5⟩]

def rtW : List RouteFeature :=
  [{ rref := some "L1", rname := none,
     members := some [⟨some 10⟩, ⟨none⟩, ⟨some 99⟩, ⟨some 20⟩] },
   { rref := some "L2", rname := some "Line two",
     members := some [⟨some 10⟩] },
   { rref := none, rname := none, members := some [⟨some 10⟩, ⟨some 20⟩] }]

theorem build_lines_resolution_witness :
    2 ≤ ([0, 1] : List Nat).length ∧
    ∃ r ∈ rtW, lineIdOf r = some "L1" ∧
      ∃ ms, r.members = some ms ∧
        ([0, 1] : List Nat) =
          ms.filterMap
            (fun m => m.mref.bind
              (fun x => dictLookup (osm_to_station stW) x)) :=
  build_lines_resolution rtW stW ("L1", ⟨"L1", [0, 1]⟩) (by decide)

end TubeSolver
